import Mathlib

/-!
Verification development for the chat-relay server in `app.py`.

The file shallowly embeds, in Lean, the parts of the program the claims
are about:

* the SQLite-backed persistence store (`save_msg`, `update_last_bot_message`,
  `load_msgs`), with the process-wide non-reentrant `db_lock` made explicit
  as a `held : Bool` lock-state parameter (`with db_lock:` on a thread that
  already holds the lock blocks forever; a blocked call is `none`);
* the upstream stream adapter `stream_claude_sonnet`, including a model of
  Python's `json.loads` (a total recursive-descent JSON parser; floating
  point numbers are carried as their lexeme, `NaN`/`Infinity` extensions
  and surrogate-pair decoding are not modelled — no claim depends on them);
* the `/chat` route handler `chat` and its inner generator `gen`.

Machine-level concerns (sockets, SQLite's on-disk format, Flask plumbing)
are abstracted: the network is an `UpstreamResult` parameter describing
what the upstream connection does, and the database is an in-memory list
of rows in insertion order.
-/

namespace SukunaArcle

/-- A decoded JSON value, as produced by Python's `json.loads`.
Numbers keep their source lexeme (Python distinguishes `int`/`float`;
no claim inspects a numeric value beyond zero/nonzero truthiness). -/
inductive Json where
  | null : Json
  | bool (b : Bool) : Json
  | num (raw : String) : Json
  | str (s : String) : Json
  | arr (xs : List Json) : Json
  | obj (kvs : List (String × Json)) : Json

/-- Python `dict.get k`: JSON object decoding keeps the *last* duplicate
key, which this right-biased fold reproduces. -/
def pyGet (k : String) (kvs : List (String × Json)) : Option Json :=
  kvs.foldl (fun acc kv => if kv.1 = k then some kv.2 else acc) none

/-- Numeric lexeme denotes zero iff every digit of its mantissa is 0
(the exponent cannot make a nonzero mantissa zero or vice versa). -/
def numIsZero (raw : String) : Bool :=
  (raw.data.takeWhile (fun c => !(c == 'e') && !(c == 'E'))).all
    (fun c => !c.isDigit || c == '0')

/-- Python truthiness (`if delta:`) of a decoded JSON value. -/
def pyTruthy : Json → Bool
  | .null => false
  | .bool b => b
  | .num raw => !numIsZero raw
  | .str s => !(s == "")
  | .arr xs => !xs.isEmpty
  | .obj kvs => !kvs.isEmpty

/-- JSON insignificant whitespace, skipped between tokens. -/
def skipWs : List Char → List Char
  | [] => []
  | c :: cs =>
    if "\t\n\r ".data.contains c then skipWs cs
    else c :: cs

/-- Value of a hex digit, if `c` is one (both cases folded together). -/
def hexDigit? (c : Char) : Option Nat :=
  if c.isDigit then some (c.toNat - 48)
  else
    match c.toLower with
    | 'a' => some 10
    | 'b' => some 11
    | 'c' => some 12
    | 'd' => some 13
    | 'e' => some 14
    | 'f' => some 15
    | _ => none

/-- Single-character JSON string escapes other than `\u`; quote,
backslash and slash escape to themselves. -/
def escChar? : Char → Option Char
  | 'n' => some '\n'
  | 't' => some '\t'
  | 'r' => some '\r'
  | 'b' => some (Char.ofNat 8)
  | 'f' => some (Char.ofNat 12)
  | c => if c = '"' ∨ c = '\\' ∨ c = '/' then some c else none

/-- Body of a JSON string after the opening quote. Returns the decoded
string and the input after the closing quote. Python's strict decoder
rejects raw control characters inside strings. -/
def parseStr (fuel : Nat) (cs : List Char) : Option (String × List Char) :=
  match fuel, cs with
  | 0, _ => none
  | _, [] => none
  | fuel + 1, c :: cs =>
    if c == '"' then some ("", cs)
    else if c == '\\' then
      match cs with
      | [] => none
      | e :: cs1 =>
        if e == 'u' then
          match cs1 with
          | h1 :: h2 :: h3 :: h4 :: cs2 =>
            match hexDigit? h1, hexDigit? h2, hexDigit? h3, hexDigit? h4 with
            | some d1, some d2, some d3, some d4 =>
              match parseStr fuel cs2 with
              | some (s, rest) =>
                some (String.mk (Char.ofNat (((d1 * 16 + d2) * 16 + d3) * 16 + d4) :: s.data), rest)
              | none => none
            | _, _, _, _ => none
          | _ => none
        else
          match escChar? e with
          | some ec =>
            match parseStr fuel cs1 with
            | some (s, rest) => some (String.mk (ec :: s.data), rest)
            | none => none
          | none => none
    else if c.toNat < 32 then none
    else
      match parseStr fuel cs with
      | some (s, rest) => some (String.mk (c :: s.data), rest)
      | none => none

/-- Consume the exact literal `p` from the front of the input. -/
def dropLit : List Char → List Char → Option (List Char)
  | [], cs => some cs
  | p :: ps, c :: cs => if c == p then dropLit ps cs else none
  | _ :: _, [] => none

/-- Optional fraction part of a JSON number (returns its lexeme). -/
def parseFrac : List Char → Option (List Char × List Char)
  | '.' :: r =>
    match r.span (fun c => c.isDigit) with
    | ([], _) => none
    | (ds, rest) => some ('.' :: ds, rest)
  | cs => some ([], cs)

/-- Optional exponent part of a JSON number (returns its lexeme). -/
def parseExp : List Char → Option (List Char × List Char)
  | [] => some ([], [])
  | e :: r =>
    if e == 'e' || e == 'E' then
      match r with
      | '+' :: r1 =>
        (match r1.span (fun c => c.isDigit) with
         | ([], _) => none
         | (ds, rest) => some (e :: '+' :: ds, rest))
      | '-' :: r1 =>
        (match r1.span (fun c => c.isDigit) with
         | ([], _) => none
         | (ds, rest) => some (e :: '-' :: ds, rest))
      | _ =>
        (match r.span (fun c => c.isDigit) with
         | ([], _) => none
         | (ds, rest) => some (e :: ds, rest))
    else some ([], e :: r)

/-- A JSON number: `-? int frac? exp?`, with the leading-zero restriction. -/
def parseNum (cs : List Char) : Option (String × List Char) :=
  let (sgn, cs1) :=
    match cs with
    | '-' :: r => ([('-' : Char)], r)
    | _ => (([] : List Char), cs)
  match cs1.span (fun c => c.isDigit) with
  | ([], _) => none
  | (ds, cs2) =>
    if ds.length > 1 && ds.head? == some '0' then none
    else
      match parseFrac cs2 with
      | none => none
      | some (fr, cs3) =>
        match parseExp cs3 with
        | none => none
        | some (ex, cs4) => some (String.mk (sgn ++ ds ++ fr ++ ex), cs4)

mutual

/-- One JSON value, after skipping leading whitespace. -/
def parseVal (fuel : Nat) (cs : List Char) : Option (Json × List Char) :=
  match fuel with
  | 0 => none
  | fuel + 1 =>
    match skipWs cs with
    | [] => none
    | c :: rest =>
      if c == '"' then
        match parseStr fuel rest with
        | some (s, r) => some (.str s, r)
        | none => none
      else if c == '{' then parseObjRest fuel rest
      else if c == '[' then parseArrRest fuel rest
      else if c == 't' then
        match dropLit ['r', 'u', 'e'] rest with
        | some r => some (.bool true, r)
        | none => none
      else if c == 'f' then
        match dropLit ['a', 'l', 's', 'e'] rest with
        | some r => some (.bool false, r)
        | none => none
      else if c == 'n' then
        match dropLit ['u', 'l', 'l'] rest with
        | some r => some (.null, r)
        | none => none
      else
        match parseNum (c :: rest) with
        | some (raw, r) => some (.num raw, r)
        | none => none

/-- Object body after `{`: either an immediate `}` or a member list. -/
def parseObjRest (fuel : Nat) (cs : List Char) : Option (Json × List Char) :=
  match fuel with
  | 0 => none
  | fuel + 1 =>
    match skipWs cs with
    | '}' :: rest => some (.obj [], rest)
    | other =>
      match parseMembers fuel other with
      | some (kvs, r) => some (.obj kvs, r)
      | none => none

/-- One or more `"key" : value` members separated by commas, then `}`. -/
def parseMembers (fuel : Nat) (cs : List Char) : Option (List (String × Json) × List Char) :=
  match fuel with
  | 0 => none
  | fuel + 1 =>
    match skipWs cs with
    | '"' :: rest =>
      match parseStr fuel rest with
      | none => none
      | some (k, r1) =>
        match skipWs r1 with
        | ':' :: r2 =>
          match parseVal fuel r2 with
          | none => none
          | some (v, r3) =>
            match skipWs r3 with
            | ',' :: r4 =>
              (match parseMembers fuel r4 with
               | some (kvs, r5) => some ((k, v) :: kvs, r5)
               | none => none)
            | '}' :: r4 => some ([(k, v)], r4)
            | _ => none
        | _ => none
    | _ => none

/-- Array body after `[`: either an immediate `]` or an element list. -/
def parseArrRest (fuel : Nat) (cs : List Char) : Option (Json × List Char) :=
  match fuel with
  | 0 => none
  | fuel + 1 =>
    match skipWs cs with
    | ']' :: rest => some (.arr [], rest)
    | other =>
      match parseElems fuel other with
      | some (xs, r) => some (.arr xs, r)
      | none => none

/-- One or more array elements separated by commas, then `]`. -/
def parseElems (fuel : Nat) (cs : List Char) : Option (List Json × List Char) :=
  match fuel with
  | 0 => none
  | fuel + 1 =>
    match parseVal fuel cs with
    | none => none
    | some (v, r1) =>
      match skipWs r1 with
      | ',' :: r2 =>
        (match parseElems fuel r2 with
         | some (xs, r3) => some (v :: xs, r3)
         | none => none)
      | ']' :: r2 => some ([v], r2)
      | _ => none

end

/-- Model of Python's `json.loads`: one value, only whitespace around it.
The fuel `3 * s.length + 3` exceeds the recursion depth any input of this
length can force (every nested call consumes at least one character per
two fuel units). -/
def jsonParse (s : String) : Option Json :=
  match parseVal (3 * s.length + 3) s.data with
  | some (v, rest) => if skipWs rest = [] then some v else none
  | none => none

/-! ## Persistence store

The SQLite table `chats(id AUTOINCREMENT, session_id, role, message, ts)`
is an in-memory list of rows in insertion order plus the autoincrement
counter. `ts` is an abstract timestamp (`DEFAULT CURRENT_TIMESTAMP`); the
current time is an explicit `now` argument to each write.

The process-wide `db_lock = threading.Lock()` is *not reentrant*: a
`with db_lock:` executed by a thread that already holds the lock blocks
forever. The embedding threads an explicit `held : Bool` through every
operation that takes the lock; a call that blocks forever is `none`. -/

structure Row where
  id : Nat
  session_id : String
  role : String
  message : String
  ts : Nat
  deriving DecidableEq

structure DBState where
  rows : List Row
  nextId : Nat
  deriving DecidableEq

/-- The INSERT performed by `save_msg` once the lock is held. -/
def insertRow (db : DBState) (now : Nat) (sid role msg : String) : DBState :=
  { rows := db.rows ++ [{ id := db.nextId, session_id := sid, role := role, message := msg, ts := now }],
    nextId := db.nextId + 1 }

/-- `with db_lock: body` for a thread whose lock-held state is `held`:
blocks forever (`none`) when the thread already holds the non-reentrant
lock, otherwise runs the body with the lock held. -/
def withLock (held : Bool) (body : Option α) : Option α :=
  if held then none else body

/-- `save_msg(sid, role, msg)`: INSERT under `db_lock`. -/
def save_msg (held : Bool) (db : DBState) (now : Nat) (sid role msg : String) : Option DBState :=
  withLock held (some (insertRow db now sid role msg))

/-- `SELECT id, message FROM chats WHERE session_id=? AND role='bot'
ORDER BY ts DESC LIMIT 1`. SQLite leaves the relative order of rows with
equal `ts` unspecified; the scan visits rows in insertion order and keeps
the later row on ties, a deterministic implementation-defined tie-break. -/
def maxTsStep (acc : Option Row) (r : Row) : Option Row :=
  match acc with
  | none => some r
  | some b => if b.ts ≤ r.ts then some r else some b

/-- The row the `LIMIT 1` query returns, as a fold of `maxTsStep` over the
session's bot rows in insertion order. -/
def lastBotRow (db : DBState) (sid : String) : Option Row :=
  (db.rows.filter (fun r => r.session_id == sid && r.role == "bot")).foldl maxTsStep none

/-- `update_last_bot_message(sid, chunk)`: under `db_lock`, append `chunk`
to the most recent bot row of the session (the UPDATE touches every row
with the selected `id`; ids are unique in any state reachable from an
empty table). When no bot row exists it falls back to `save_msg`, which
re-acquires the already-held non-reentrant lock. -/
def update_last_bot_message (held : Bool) (db : DBState) (now : Nat) (sid chunk : String) :
    Option DBState :=
  withLock held
    (match lastBotRow db sid with
     | some lastBot =>
       some { db with
              rows := db.rows.map (fun r =>
                if r.id == lastBot.id then { r with message := r.message ++ chunk } else r) }
     | none => save_msg true db now sid "bot" chunk)

/-! ## Transcript loader -/

/-- Key comparison of `ORDER BY ts ASC`. -/
def tsLe (a b : Row) : Prop := a.ts ≤ b.ts

instance : DecidableRel tsLe := fun a b => Nat.decLe a.ts b.ts

instance : IsTotal Row tsLe := ⟨fun a b => Nat.le_total a.ts b.ts⟩

instance : IsTrans Row tsLe := ⟨fun _ _ _ hab hbc => Nat.le_trans hab hbc⟩

/-- The rows `SELECT role, message FROM chats WHERE session_id=?
ORDER BY ts ASC` iterates over: a stable sort by `ts`, so rows with
equal `ts` keep insertion order (SQLite leaves their order unspecified). -/
def orderedRows (db : DBState) (sid : String) : List Row :=
  List.insertionSort tsLe (db.rows.filter (fun r => r.session_id == sid))

/-- Case-insensitive literal match: consumes `pat` from the front of the
input (input lowercased, pattern given lowercase), returning the rest. -/
def ciMatch : List Char → List Char → Option (List Char)
  | [], cs => some cs
  | p :: ps, c :: cs => if c.toLower == p then ciMatch ps cs else none
  | _ :: _, [] => none

def openTagChars : List Char := "<think>".data

def closeTagChars : List Char := "</think>".data

/-- Scan for the nearest `</think>` (case-insensitive), returning the
input after it — the non-greedy `[\s\S]*?</think>` of the regex. -/
def findCloseTag : List Char → Option (List Char)
  | [] => none
  | c :: cs =>
    match ciMatch closeTagChars (c :: cs) with
    | some rest => some rest
    | none => findCloseTag cs

/-- Left-to-right scan of `re.sub(r'<think>[\s\S]*?</think>', '', msg,
flags=re.IGNORECASE)`: at each position, if `<think>` matches here and a
`</think>` occurs later, delete through the nearest `</think>` and resume
after it; otherwise keep the character. Each step consumes at least one
character, so `fuel = length` never runs out (the 0-fuel branch returns
the rest unchanged and is unreachable from `stripThink`). -/
def stripThinkGo (fuel : Nat) (cs : List Char) : List Char :=
  match fuel, cs with
  | _, [] => []
  | 0, cs => cs
  | fuel + 1, c :: cs =>
    match ciMatch openTagChars (c :: cs) with
    | some afterOpen =>
      (match findCloseTag afterOpen with
       | some afterClose => stripThinkGo fuel afterClose
       | none => c :: stripThinkGo fuel cs)
    | none => c :: stripThinkGo fuel cs

def stripThink (s : String) : String :=
  String.mk (stripThinkGo s.data.length s.data)

/-- Python `str.strip()` whitespace (ASCII part; the claims use none of
the exotic Unicode space characters). -/
def isPyWs (c : Char) : Bool :=
  "\t\n\x0b\x0c\r ".data.contains c

/-- Python `s.strip()`. -/
def pstrip (s : String) : String :=
  String.mk (((s.data.dropWhile isPyWs).reverse.dropWhile isPyWs).reverse)

/-- One entry of the transcript sent upstream. -/
structure Msg where
  role : String
  content : String
  deriving DecidableEq

/-- `load_msgs(sid)`: iterate the ordered rows, remap role `bot` to
`assistant`, strip thinking blocks, trim, and keep the row only when the
cleaned content is non-empty. -/
def load_msgs (db : DBState) (sid : String) : List Msg :=
  (orderedRows db sid).filterMap (fun row =>
    let role := if row.role == "bot" then "assistant" else row.role
    let clean_message := pstrip (stripThink row.message)
    if clean_message == "" then none
    else some { role := role, content := clean_message })

/-! ## Upstream stream adapter -/

/-- The synthetic fragment text yielded by `stream_claude_sonnet`'s
`except` clause: `f"🚨 Claude API Error: {str(e)}"`. -/
def apiErrorText (e : String) : String :=
  "🚨 Claude API Error: " ++ e

/-- Models `str(e)` of the `AttributeError` raised by `.get` on a decoded
non-dict value (exact Python wording is not significant to any claim). -/
def attributeErrorText : String :=
  "AttributeError: object has no attribute get"

/-- `if decoded.startswith("data: "): decoded = decoded[6:]` — strip the
6-character `data: ` prefix when present (`dropLit` is the prefix test). -/
def stripDataTag (s : String) : String :=
  match dropLit "data: ".data s.data with
  | some rest => String.mk rest
  | none => s

/-- The body of the adapter's `for line in r.iter_lines():` for one line,
already utf-8 decoded. `.ok none` — the line is skipped (empty line,
`[DONE]`, undecodable line, non-`text-delta` record, empty delta);
`.ok (some j)` — the delta value `j` is yielded; `.error e` — an
exception not caught by the inner `except` escapes to the outer handler
(`.get` on a decoded non-dict raises `AttributeError`). -/
def lineStep (line : String) : Except String (Option Json) :=
  if line == "" then .ok none
  else
    let decoded := stripDataTag line
    if decoded == "[DONE]" then .ok none
    else
      match jsonParse decoded with
      | none => .ok none
      | some (Json.obj kvs) =>
        (match pyGet "type" kvs with
         | some (Json.str t) =>
           if t == "text-delta" then
             (if pyTruthy ((pyGet "delta" kvs).getD (Json.str "")) then
                .ok ((pyGet "delta" kvs).getD (Json.str ""))
              else .ok none)
           else .ok none
         | _ => .ok none)
      | some _ => .error attributeErrorText

/-- The adapter's line loop. `tailError` is a read error raised by the
connection after the given lines were delivered (`none` — the stream
ended normally). Any exception — mid-iteration or at the end — lands in
the outer `except Exception`, which yields one error fragment and ends
the generator. -/
def adapterLines : List String → Option String → List Json
  | [], none => []
  | [], some e => [Json.str (apiErrorText e)]
  | l :: ls, te =>
    match lineStep l with
    | .ok none => adapterLines ls te
    | .ok (some j) => j :: adapterLines ls te
    | .error e => [Json.str (apiErrorText e)]

/-- What the network does for this request: either the POST /
`raise_for_status()` fails before any line is read, or the connection
delivers `lines` and then either closes normally or fails. -/
inductive UpstreamResult where
  | connectError (e : String)
  | stream (lines : List String) (tailError : Option String)

set_option linter.unusedVariables false in
/-- `stream_claude_sonnet(chat_history)`: the payload built from
`chat_history` only affects the network, which is abstracted by
`upstream`; the fragment sequence the generator produces. -/
def stream_claude_sonnet (chat_history : List Msg) (upstream : UpstreamResult) : List Json :=
  match upstream with
  | .connectError e => [Json.str (apiErrorText e)]
  | .stream lines tailError => adapterLines lines tailError

/-! ## Response orchestrator (`/chat` route) -/

def continuePrompt : String :=
  "Please continue generating the response precisely from where you left off. If it is code, ensure it\x27s a valid continuation and start with a comment indicating it\x27s a continuation (e.g., \x27# Part 2\x27, \x27// Continued...\x27). Do not add any introductory phrases or repeat previous content."

def unsupportedModelText (model : String) : String :=
  "🚫 The selected model \x27" ++ model ++ "\x27 is not supported."

/-- `f"🤖 **System Error**\n\nUnexpected error: {str(e)}"` from `gen`'s
last `except` clause. -/
def sysErrorText (e : String) : String :=
  "🤖 **System Error**\n\nUnexpected error: " ++ e

/-- Models `str(e)` of the `TypeError` raised by `buffer += chunk_text`
when the adapter yielded a non-`str` delta (exact wording insignificant). -/
def concatTypeErrorText : String :=
  "can only concatenate str to str"

/-- `gen`'s fragment loop: `buffer += chunk_text; yield chunk_text` over
the adapter's fragments. Returns the fragments sent to the client and the
final `buffer`. A non-`str` chunk raises `TypeError` in `buffer +=`
before the `yield`; `except Exception` then yields a single system-error
fragment and sets `buffer` to it. (`stream_claude_sonnet` itself never
raises, so the two `except` arms of `gen` are reachable only this way.) -/
def genLoop (buffer : String) : List Json → List Json × String
  | [] => ([], buffer)
  | Json.str s :: rest =>
    let r := genLoop (buffer ++ s) rest
    (Json.str s :: r.1, r.2)
  | _ :: _ =>
    ([Json.str (sysErrorText concatTypeErrorText)], sysErrorText concatTypeErrorText)

/-- The commit at the end of `gen`: `if buffer:` then `update_last_bot_message`
for action `continue` and `save_msg(role="bot")` otherwise; no write when
the buffer is empty. Called with the lock free. -/
def genCommit (db : DBState) (now : Nat) (sid action buffer : String) : Option DBState :=
  if buffer == "" then some db
  else if action == "continue" then update_last_bot_message false db now sid buffer
  else save_msg false db now sid "bot" buffer

/-- The whole of `gen`: dispatch on the model (only `claude-sonnet-3.7`
reaches the adapter; any other model yields one unsupported-model
fragment and sets the buffer to it), then the commit. Returns the
fragments streamed to the client and the store state after the commit
(`none` — the commit blocked forever on `db_lock`). -/
def runGen (db : DBState) (now : Nat) (sid model action : String)
    (chat_history : List Msg) (upstream : UpstreamResult) : List Json × Option DBState :=
  let (out, buffer) :=
    if model == "claude-sonnet-3.7" then
      genLoop "" (stream_claude_sonnet chat_history upstream)
    else
      ([Json.str (unsupportedModelText model)], unsupportedModelText model)
  (out, genCommit db now sid action buffer)

/-- The request body of `POST /chat`. Absent optional JSON fields are
`none`; `fileInfo` is its `name` field when present. -/
structure ChatReq where
  session : Option String
  model : Option String
  action : Option String
  text : Option String
  fileInfo : Option String

/-- Outcome of the route: 400, 500 (body text as in the source:
`str(KeyError(k))` is the quoted key), or a streamed 200 carrying the
fragments sent and the store state after `gen`'s commit. -/
inductive ChatResponse where
  | badRequest (body : String)
  | serverError (body : String)
  | streamResp (fragments : List Json) (commit : Option DBState)

/-- The `/chat` handler. `data["session"]` / `data["text"]` on a missing
key raise `KeyError`, caught by the outer `except` as a 500. The result
is `none` only if the handler itself blocks forever (never: its one
`save_msg` runs with the lock free). -/
def chat (db : DBState) (req : ChatReq) (upstream : UpstreamResult) (now : Nat) :
    Option ChatResponse :=
  match req.session with
  | none => some (.serverError "Server error: \x27session\x27")
  | some sid =>
    let model := req.model.getD "claude-sonnet-3.7"
    let action := req.action.getD "chat"
    if action == "chat" then
      match req.text with
      | none => some (.serverError "Server error: \x27text\x27")
      | some text =>
        let user_message_to_save :=
          match req.fileInfo with
          | some name => "[File: " ++ name ++ "]\n" ++ text
          | none => text
        match save_msg false db now sid "user" user_message_to_save with
        | none => none
        | some db1 =>
          let chat_history := load_msgs db1 sid
          let r := runGen db1 now sid model action chat_history upstream
          some (.streamResp r.1 r.2)
    else if action == "continue" then
      let chat_history := load_msgs db sid ++ [{ role := "user", content := continuePrompt }]
      let r := runGen db now sid model action chat_history upstream
      some (.streamResp r.1 r.2)
    else some (.badRequest "Invalid action.")

/-! ## Concrete test fixtures used by the claim theorems -/

/-- Whether a route outcome is an HTTP 400 response. -/
def isBadRequest : Option ChatResponse → Bool
  | some (.badRequest _) => true
  | _ => false

/-- The spec's worked example of the upstream wire protocol. -/
def exampleLines : List String :=
  ["data: \x7b\"type\":\"text-delta\",\"delta\":\"Hel\"\x7d",
   "data: \x7b\"type\":\"text-delta\",\"delta\":\"lo\"\x7d",
   "data: [DONE]"]

/-- An upstream response whose first record decodes to the number 5:
`5 .get("type")` raises `AttributeError` in the adapter loop. -/
def nonObjectLines : List String :=
  ["data: 5",
   "data: \x7b\"type\":\"text-delta\",\"delta\":\"x\"\x7d"]

/-- A store holding a single bot row for session `"s"`. -/
def oneBotDb : DBState :=
  { rows := [{ id := 1, session_id := "s", role := "bot", message := "old", ts := 1 }], nextId := 2 }

/-- `oneBotDb` after `update_last_bot_message` ran with the
unsupported-model fragment for `"gpt-4"` as the delta. -/
def oneBotDbAfter : DBState :=
  { rows := [{ id := 1, session_id := "s", role := "bot",
               message := "old" ++ unsupportedModelText "gpt-4", ts := 1 }], nextId := 2 }

/-- A `continue` request naming an unsupported model. -/
def continueGpt4Req : ChatReq :=
  { session := some "s", model := some "gpt-4", action := some "continue",
    text := none, fileInfo := none }

/-- A `chat` request missing its `text` field. -/
def noTextReq : ChatReq :=
  { session := some "s", model := none, action := some "chat",
    text := none, fileInfo := none }

/-- Store with one bot row carrying a thinking block, one user row that is
solely a thinking block, and one plain user row. -/
def thinkDb : DBState :=
  { rows :=
      [{ id := 1, session_id := "s", role := "bot", message := "<think>secret</think>visible", ts := 1 },
       { id := 2, session_id := "s", role := "user", message := "<think>private</think>", ts := 2 },
       { id := 3, session_id := "s", role := "user", message := "hello", ts := 3 }],
    nextId := 4 }

/-! ## Helper lemmas -/

lemma foldl_maxTsStep_keep (b : Row) :
    ∀ l : List Row, (∀ r ∈ l, r = b ∨ r.ts < b.ts) → l.foldl maxTsStep (some b) = some b := by
  intro l
  induction l with
  | nil => intro _; rfl
  | cons r rest ih =>
    intro h
    have hr := h r (List.mem_cons_self r rest)
    have hstep : maxTsStep (some b) r = some b := by
      rcases hr with hrb | hlt
      · subst hrb; simp [maxTsStep]
      · simp [maxTsStep, Nat.not_le.mpr hlt]
    simpa [List.foldl_cons, hstep] using ih (fun x hx => h x (List.mem_cons_of_mem r hx))

lemma foldl_maxTsStep_latest (b : Row) :
    ∀ l : List Row, b ∈ l → (∀ r ∈ l, r = b ∨ r.ts < b.ts) →
    ∀ acc : Option Row, (acc = none ∨ acc = some b ∨ ∃ a, a.ts < b.ts ∧ acc = some a) →
    l.foldl maxTsStep acc = some b := by
  intro l
  induction l with
  | nil => intro hmem; exact absurd hmem (List.not_mem_nil b)
  | cons r rest ih =>
    intro hmem h acc hacc
    by_cases hrb : r = b
    · subst hrb
      have hstep : maxTsStep acc r = some r := by
        rcases hacc with h1 | h1 | ⟨a, hlt, h1⟩
        · subst h1; rfl
        · subst h1; simp [maxTsStep]
        · subst h1; simp [maxTsStep, Nat.le_of_lt hlt]
      rw [List.foldl_cons, hstep]
      exact foldl_maxTsStep_keep r rest (fun x hx => h x (List.mem_cons_of_mem r hx))
    · have hmem' : b ∈ rest := by
        rcases List.mem_cons.mp hmem with h1 | h1
        · exact absurd h1.symm hrb
        · exact h1
      have hlt : r.ts < b.ts := by
        rcases h r (List.mem_cons_self r rest) with h1 | h1
        · exact absurd h1 hrb
        · exact h1
      have hacc' : maxTsStep acc r = none ∨ maxTsStep acc r = some b ∨
          ∃ a, a.ts < b.ts ∧ maxTsStep acc r = some a := by
        rcases hacc with h1 | h1 | ⟨a, halt, h1⟩ <;> subst h1
        · exact Or.inr (Or.inr ⟨r, hlt, rfl⟩)
        · right; left; simp [maxTsStep, Nat.not_le.mpr hlt]
        · by_cases hle : a.ts ≤ r.ts
          · exact Or.inr (Or.inr ⟨r, hlt, by simp [maxTsStep, hle]⟩)
          · exact Or.inr (Or.inr ⟨a, halt, by simp [maxTsStep, hle]⟩)
      rw [List.foldl_cons]
      exact ih hmem' (fun x hx => h x (List.mem_cons_of_mem r hx)) _ hacc'

/-- The `LIMIT 1` query returns the spec-level "most recent bot message":
the bot row of the session that every other bot row of the session is
strictly older than. -/
lemma lastBotRow_of_latest (db : DBState) (sid : String) (b : Row)
    (hb : b ∈ db.rows) (hsid : b.session_id = sid) (hrole : b.role = "bot")
    (hmax : ∀ r ∈ db.rows, r.session_id = sid → r.role = "bot" → r ≠ b → r.ts < b.ts) :
    lastBotRow db sid = some b := by
  unfold lastBotRow
  apply foldl_maxTsStep_latest b
  · exact List.mem_filter.mpr ⟨hb, by simp [hsid, hrole]⟩
  · intro r hr
    rcases List.mem_filter.mp hr with ⟨hrm, hcond⟩
    simp only [Bool.and_eq_true] at hcond
    obtain ⟨hc1, hc2⟩ := hcond
    by_cases hrb : r = b
    · exact Or.inl hrb
    · exact Or.inr (hmax r hrm (beq_iff_eq.mp hc1) (beq_iff_eq.mp hc2) hrb)
  · exact Or.inl rfl

/-- A `filterMap` whose hits agree with `g` yields a sublist of `map g`:
retained rows keep their original relative order. -/
lemma filterMap_sublist_map {α β : Type} (f : α → Option β) (g : α → β)
    (hfg : ∀ a b, f a = some b → b = g a) :
    ∀ l : List α, List.Sublist (l.filterMap f) (l.map g) := by
  intro l
  induction l with
  | nil => simp
  | cons a rest ih =>
    rw [List.map_cons]
    cases hfa : f a with
    | none =>
      rw [List.filterMap_cons_none hfa]
      exact ih.cons (g a)
    | some b =>
      rw [List.filterMap_cons_some hfa, hfg a b hfa]
      exact ih.cons₂ (g a)

/-- Decomposition of membership in `load_msgs`: every transcript entry
comes from a stored row of the session whose cleaned content is
non-empty. -/
lemma load_msgs_mem (db : DBState) (sid : String) (m : Msg) (hm : m ∈ load_msgs db sid) :
    ∃ r, r ∈ db.rows ∧ r.session_id = sid ∧ pstrip (stripThink r.message) ≠ "" ∧
      m = { role := if r.role == "bot" then "assistant" else r.role,
            content := pstrip (stripThink r.message) } := by
  unfold load_msgs at hm
  rcases List.mem_filterMap.mp hm with ⟨r, hr, hmr⟩
  have hr2 : r ∈ db.rows.filter (fun r => r.session_id == sid) :=
    (List.Perm.mem_iff (List.perm_insertionSort tsLe _)).mp hr
  rcases List.mem_filter.mp hr2 with ⟨hrm, hcond⟩
  dsimp only at hmr
  split at hmr
  · exact absurd hmr (by simp)
  · next hne =>
    refine ⟨r, hrm, beq_iff_eq.mp hcond, ?_, (Option.some.inj hmr).symm⟩
    intro h
    exact hne (by simp [h])

/-! ## Claim theorems -/

/-- **C1.** `update_last_bot_message(S, d)`: when the most recent bot row
of the session exists, the call terminates, appends `d` to that row's
content in place, and inserts no new row — this half of the claim holds.
When no bot row exists, the claim says the call terminates and appends a
new bot row with content `d`; instead the fallback `save_msg` re-acquires
the non-reentrant `db_lock` that `update_last_bot_message` already holds
and blocks forever (`= none`), shown here at the empty store. -/
theorem C1_update_last_inplace_and_fallback_deadlock
    (db : DBState) (now : Nat) (sid d : String) (b : Row)
    (hb : b ∈ db.rows) (hsid : b.session_id = sid) (hrole : b.role = "bot")
    (hmax : ∀ r ∈ db.rows, r.session_id = sid → r.role = "bot" → r ≠ b → r.ts < b.ts) :
    (update_last_bot_message false db now sid d =
      some { db with rows := db.rows.map (fun r =>
        if r.id == b.id then { r with message := r.message ++ d } else r) } ∧
     (db.rows.map (fun r =>
        if r.id == b.id then { r with message := r.message ++ d } else r)).length =
       db.rows.length) ∧
    update_last_bot_message false { rows := [], nextId := 1 } now sid d = none := by
  refine ⟨⟨?_, by simp⟩, rfl⟩
  unfold update_last_bot_message withLock
  rw [lastBotRow_of_latest db sid b hb hsid hrole hmax]
  simp

/-- Witness for C1 at a concrete store: one bot row `"C"`, delta `"+d"`. -/
theorem C1_witness :
    update_last_bot_message false oneBotDb 5 "s" "+d" =
      some { rows := [{ id := 1, session_id := "s", role := "bot", message := "old+d", ts := 1 }],
             nextId := 2 } ∧
    update_last_bot_message false { rows := [], nextId := 1 } 5 "s" "+d" = none := by
  have h := C1_update_last_inplace_and_fallback_deadlock oneBotDb 5 "s" "+d"
    { id := 1, session_id := "s", role := "bot", message := "old", ts := 1 }
    (by simp [oneBotDb]) rfl rfl
    (by intro r hr h1 h2 h3; simp [oneBotDb] at hr; exact absurd hr h3)
  exact ⟨by rw [h.1.1]; rfl, h.2⟩

/-- **C9.** `load_ordered(S)` (the `ORDER BY ts ASC` read that feeds the
transcript loader) lists the session's messages in non-decreasing
timestamp order; it returns exactly the session's rows (a permutation of
the table filtered to S); and a second call with no intervening writes
(same row store) returns the same result. -/
theorem C9_load_ordered_sorted_and_idempotent (db : DBState) (sid : String) :
    (orderedRows db sid).Pairwise (fun a b => a.ts ≤ b.ts) ∧
    (orderedRows db sid).Perm (db.rows.filter (fun r => r.session_id == sid)) ∧
    ∀ db2 : DBState, db2.rows = db.rows → orderedRows db2 sid = orderedRows db sid := by
  refine ⟨?_, List.perm_insertionSort tsLe _, ?_⟩
  · exact List.sorted_insertionSort tsLe _
  · intro db2 h
    unfold orderedRows
    rw [h]

/-- Witness for C9 at a concrete store, with a second store differing
only in the autoincrement counter (same rows, so the same read). -/
theorem C9_witness :
    (orderedRows thinkDb "s").Pairwise (fun a b => a.ts ≤ b.ts) ∧
    orderedRows { rows := thinkDb.rows, nextId := 99 } "s" = orderedRows thinkDb "s" :=
  ⟨(C9_load_ordered_sorted_and_idempotent thinkDb "s").1,
   (C9_load_ordered_sorted_and_idempotent thinkDb "s").2.2 { rows := thinkDb.rows, nextId := 99 } rfl⟩

/-- **C8.** Every transcript entry comes from a stored row of the
session, with role `"bot"` remapped to `"assistant"` and any other role
passed through unchanged. -/
theorem C8_role_remap (db : DBState) (sid : String) (m : Msg) (hm : m ∈ load_msgs db sid) :
    ∃ r, r ∈ db.rows ∧ r.session_id = sid ∧
      m.role = (if r.role == "bot" then "assistant" else r.role) := by
  rcases load_msgs_mem db sid m hm with ⟨r, h1, h2, _, h4⟩
  exact ⟨r, h1, h2, by rw [h4]⟩

/-- Witness for C8: in `thinkDb`, the bot row surfaces as `"assistant"`
and the user row as `"user"`. -/
theorem C8_witness :
    ({ role := "assistant", content := "visible" } : Msg) ∈ load_msgs thinkDb "s" ∧
    ({ role := "user", content := "hello" } : Msg) ∈ load_msgs thinkDb "s" ∧
    (∃ r, r ∈ thinkDb.rows ∧ r.session_id = "s" ∧
      ("assistant" : String) = (if r.role == "bot" then "assistant" else r.role)) ∧
    (∃ r, r ∈ thinkDb.rows ∧ r.session_id = "s" ∧
      ("user" : String) = (if r.role == "bot" then "assistant" else r.role)) := by
  have h1 : ({ role := "assistant", content := "visible" } : Msg) ∈ load_msgs thinkDb "s" := by
    decide
  have h2 : ({ role := "user", content := "hello" } : Msg) ∈ load_msgs thinkDb "s" := by
    decide
  exact ⟨h1, h2, C8_role_remap thinkDb "s" _ h1, C8_role_remap thinkDb "s" _ h2⟩

/-- **C7.** The transcript loader removes thinking-tag blocks
(case-insensitive, newlines included), trims surrounding whitespace,
excludes a row whose remaining content is empty, and preserves the order
of retained rows (the transcript is a sublist of the per-row cleaned
entries, in order): every retained entry has non-empty content, and the
spec's examples evaluate as claimed on `thinkDb`. -/
theorem C7_strip_thinking_blocks (db : DBState) (sid : String) (m : Msg)
    (hm : m ∈ load_msgs db sid) :
    m.content ≠ "" ∧
    List.Sublist (load_msgs db sid) ((orderedRows db sid).map (fun r =>
      { role := if r.role == "bot" then "assistant" else r.role,
        content := pstrip (stripThink r.message) })) ∧
    pstrip (stripThink "<think>secret</think>visible") = "visible" ∧
    pstrip (stripThink "<THINK>multi\nline secret</THink>  visible\t") = "visible" ∧
    pstrip (stripThink "<think>only a thinking block</think>") = "" ∧
    load_msgs thinkDb "s" =
      [{ role := "assistant", content := "visible" }, { role := "user", content := "hello" }] := by
  refine ⟨?_, ?_, by decide, by decide, by decide, by decide⟩
  · rcases load_msgs_mem db sid m hm with ⟨r, _, _, h3, h4⟩
    rw [h4]
    exact h3
  · unfold load_msgs
    apply filterMap_sublist_map
    intro a b hab
    dsimp only at hab
    split at hab
    · exact absurd hab (by simp)
    · exact (Option.some.inj hab).symm

/-- Witness for C7 at `thinkDb`. -/
theorem C7_witness :
    ({ role := "assistant", content := "visible" } : Msg).content ≠ "" ∧
    load_msgs thinkDb "s" =
      [{ role := "assistant", content := "visible" }, { role := "user", content := "hello" }] := by
  have h := C7_strip_thinking_blocks thinkDb "s" { role := "assistant", content := "visible" }
    (by decide)
  exact ⟨h.1, h.2.2.2.2.2⟩

/-- **C3 counterexample.** The claim says a record with a different (or
missing) discriminator is silently skipped. On the lines
`data: 5`, `data: {"type":"text-delta","delta":"x"}` the decoded `5` is
not a dict, so `data_json.get("type")` raises `AttributeError`; the outer
`except` turns the whole stream into a single Claude API Error fragment
instead of skipping the record and yielding `"x"`. -/
theorem C3_counterexample :
    adapterLines nonObjectLines none = [Json.str (apiErrorText attributeErrorText)] ∧
    adapterLines nonObjectLines none ≠ [Json.str "x"] := by
  refine ⟨rfl, fun h => ?_⟩
  have h0 : ([Json.str (apiErrorText attributeErrorText)] : List Json) = [Json.str "x"] :=
    Eq.trans (by rfl) h
  have h1 := (List.cons.inj h0).1
  injection h1 with h2
  exact absurd h2 (by decide)

/-- **C3 amended.** The adapter strips a leading `data: ` prefix, ignores
`[DONE]`, yields the non-empty `delta` of each *JSON-object* record whose
`type` equals `text-delta` in arrival order, and silently skips any
object record with a different discriminator and any line that fails to
decode; however a line that decodes to a non-object JSON value aborts the
stream with a single Claude API Error fragment (after any fragments
already yielded). The spec's three-line example yields `"Hel"`, `"lo"`,
concatenating to `"Hello"`. -/
theorem C3_amended_line_protocol :
    (adapterLines exampleLines none = [Json.str "Hel", Json.str "lo"] ∧
      "Hel" ++ "lo" = "Hello") ∧
    (∀ line : String, line ≠ "" → jsonParse (stripDataTag line) = none →
      lineStep line = .ok none) ∧
    (∀ (line : String) (kvs : List (String × Json)),
      jsonParse (stripDataTag line) = some (Json.obj kvs) →
      pyGet "type" kvs ≠ some (Json.str "text-delta") →
      lineStep line = .ok none) ∧
    (∀ lines : List String, (∀ l ∈ lines, ∀ e, lineStep l ≠ .error e) →
      adapterLines lines none = lines.filterMap (fun l =>
        match lineStep l with
        | .ok o => o
        | .error _ => none)) ∧
    (∀ (l : String) (ls : List String) (e : String), lineStep l = .error e →
      adapterLines (l :: ls) none = [Json.str (apiErrorText e)]) ∧
    (∀ (line : String) (v : Json), line ≠ "" → stripDataTag line ≠ "[DONE]" →
      jsonParse (stripDataTag line) = some v → (∀ kvs, v ≠ Json.obj kvs) →
      lineStep line = .error attributeErrorText) := by
  refine ⟨⟨rfl, rfl⟩, ?_, ?_, ?_, ?_, ?_⟩
  · intro line hne hparse
    simp [lineStep, hne, hparse]
  · intro line kvs hparse htype
    by_cases hline : line = ""
    · simp [lineStep, hline]
    · by_cases hdone : stripDataTag line = "[DONE]"
      · simp [lineStep, hline, hdone]
      · cases hty : pyGet "type" kvs with
        | none => simp [lineStep, hline, hdone, hparse, hty]
        | some v =>
          cases v with
          | str t =>
            have ht : t ≠ "text-delta" := by
              intro h
              exact htype (by rw [hty, h])
            simp [lineStep, hline, hdone, hparse, hty, ht]
          | null => simp [lineStep, hline, hdone, hparse, hty]
          | bool b => simp [lineStep, hline, hdone, hparse, hty]
          | num raw => simp [lineStep, hline, hdone, hparse, hty]
          | arr xs => simp [lineStep, hline, hdone, hparse, hty]
          | obj kvs2 => simp [lineStep, hline, hdone, hparse, hty]
  · intro lines h
    induction lines with
    | nil => rfl
    | cons l ls ih =>
      have hl := h l (List.mem_cons_self l ls)
      have hrec := ih (fun x hx e => h x (List.mem_cons_of_mem l hx) e)
      cases hstep : lineStep l with
      | ok o =>
        cases o with
        | none => simp [adapterLines, hstep, List.filterMap_cons, hrec]
        | some j => simp [adapterLines, hstep, List.filterMap_cons, hrec]
      | error e => exact absurd hstep (hl e)
  · intro l ls e hstep
    simp [adapterLines, hstep]
  · intro line v hline hdone hparse hobj
    cases v with
    | obj kvs => exact absurd rfl (hobj kvs)
    | null => simp [lineStep, hline, hdone, hparse]
    | bool b => simp [lineStep, hline, hdone, hparse]
    | num raw => simp [lineStep, hline, hdone, hparse]
    | str s => simp [lineStep, hline, hdone, hparse]
    | arr xs => simp [lineStep, hline, hdone, hparse]

/-- Witness for C3's amended theorem: an undecodable line is skipped, and
the non-object line `data: 5` aborts with one error fragment. -/
theorem C3_amended_witness :
    lineStep "data: notjson" = .ok none ∧
    adapterLines ["data: 5"] none = [Json.str (apiErrorText attributeErrorText)] ∧
    lineStep "data: 5" = .error attributeErrorText := by
  refine ⟨?_, ?_, ?_⟩
  · exact C3_amended_line_protocol.2.1 "data: notjson" (by decide) rfl
  · exact C3_amended_line_protocol.2.2.2.2.1 "data: 5" [] attributeErrorText rfl
  · exact C3_amended_line_protocol.2.2.2.2.2 "data: 5" (Json.num "5") (by decide) (by decide) rfl
      (fun kvs h => by injection h)

/-- The error fragment is never the empty string, so `if buffer:` takes
the commit branch after an error. -/
lemma apiErrorText_ne_empty (e : String) : apiErrorText e ≠ "" := by
  intro h
  have h2 := congrArg String.length h
  rw [apiErrorText, String.length_append] at h2
  have h3 : 0 < ("🚨 Claude API Error: " : String).length := by decide
  have h4 : ("" : String).length = 0 := rfl
  omega

/-- The unsupported-model fragment is never the empty string. -/
lemma unsupportedModelText_ne_empty (model : String) : unsupportedModelText model ≠ "" := by
  intro h
  have h2 := congrArg String.length h
  rw [unsupportedModelText, String.length_append, String.length_append] at h2
  have h3 : 0 < ("🚫 The selected model \x27" : String).length := by decide
  have h4 : ("" : String).length = 0 := rfl
  omega

/-- `gen`'s loop over string fragments forwards them unchanged and leaves
the concatenation (in arrival order) in the buffer. -/
lemma genLoop_map_str (ss : List String) :
    ∀ b, genLoop b (ss.map Json.str) = (ss.map Json.str, ss.foldl (fun r s => r ++ s) b) := by
  induction ss with
  | nil => intro b; rfl
  | cons s rest ih => intro b; simp [genLoop, ih (b ++ s)]

/-- **C4.** An upstream failure — connection/HTTP-status failure before
any line, a read error after only skipped lines, or an in-loop exception
before any fragment was produced — makes the adapter yield exactly one
synthetic fragment carrying the `🚨 Claude API Error:` marker, and the
fragment sequence terminates (the adapter is a total function into a
fragment list: no exception escapes it). The orchestrator then runs its
commit with that fragment as the content: `update_last_bot_message` for
`continue`, a bot-role `save_msg` otherwise. -/
theorem C4_upstream_failure_single_error_fragment
    (db : DBState) (now : Nat) (sid action e : String)
    (history : List Msg) (lines : List String) (te : Option String)
    (hquiet : ∀ l ∈ lines, lineStep l = .ok none) :
    stream_claude_sonnet history (.connectError e) = [Json.str (apiErrorText e)] ∧
    (∃ rest, apiErrorText e = "🚨 Claude API Error:" ++ rest) ∧
    adapterLines lines (some e) = [Json.str (apiErrorText e)] ∧
    (∀ (l : String) (ls : List String) (e2 : String), lineStep l = .error e2 →
      adapterLines (lines ++ l :: ls) te = [Json.str (apiErrorText e2)]) ∧
    runGen db now sid "claude-sonnet-3.7" action history (.connectError e) =
      ([Json.str (apiErrorText e)],
        if action == "continue" then update_last_bot_message false db now sid (apiErrorText e)
        else save_msg false db now sid "bot" (apiErrorText e)) := by
  refine ⟨rfl, ⟨" " ++ e, by
    rw [apiErrorText, ← String.append_assoc]
    exact congrArg (fun p => p ++ e) (by decide)⟩, ?_, ?_, ?_⟩
  · induction lines with
    | nil => rfl
    | cons l ls ih =>
      have hl := hquiet l (List.mem_cons_self l ls)
      simp only [adapterLines, hl]
      exact ih (fun x hx => hquiet x (List.mem_cons_of_mem l hx))
  · intro l ls e2 hstep
    induction lines with
    | nil => simp [adapterLines, hstep]
    | cons x xs ih =>
      have hx := hquiet x (List.mem_cons_self x xs)
      simp only [List.cons_append, adapterLines, hx]
      exact ih (fun y hy => hquiet y (List.mem_cons_of_mem x hy))
  · have hne := apiErrorText_ne_empty e
    simp [runGen, stream_claude_sonnet, genLoop, genCommit, hne]

/-- Witness for C4: a concrete connection failure on a store with one
bot row, for both actions. -/
theorem C4_witness :
    stream_claude_sonnet [] (.connectError "boom") = [Json.str (apiErrorText "boom")] ∧
    adapterLines ["", "data: [DONE]"] (some "boom") = [Json.str (apiErrorText "boom")] ∧
    runGen oneBotDb 5 "s" "claude-sonnet-3.7" "chat" [] (.connectError "boom") =
      ([Json.str (apiErrorText "boom")], save_msg false oneBotDb 5 "s" "bot" (apiErrorText "boom")) := by
  have h := C4_upstream_failure_single_error_fragment oneBotDb 5 "s" "chat" "boom" []
    ["", "data: [DONE]"] none (by intro l hl; fin_cases hl <;> rfl)
  exact ⟨h.1, h.2.2.1, h.2.2.2.2⟩

/-- **C5.** After the fragment sequence is exhausted, the buffer holds
exactly the concatenation of the yielded fragments in arrival order; a
non-empty buffer is committed — via `update_last_bot_message` when
`action == "continue"`, via a bot-role `save_msg` for `action == "chat"`
— and an empty buffer performs no store write at all (the store is
returned unchanged). -/
theorem C5_commit_exactly_on_nonempty_buffer
    (db : DBState) (now : Nat) (sid action : String) (ss : List String)
    (hne : String.join ss ≠ "") :
    genLoop "" (ss.map Json.str) = (ss.map Json.str, String.join ss) ∧
    genCommit db now sid action "" = some db ∧
    genCommit db now sid "continue" (String.join ss) =
      update_last_bot_message false db now sid (String.join ss) ∧
    genCommit db now sid "chat" (String.join ss) =
      save_msg false db now sid "bot" (String.join ss) := by
  refine ⟨?_, rfl, ?_, ?_⟩
  · rw [genLoop_map_str ss ""]
    rfl
  · simp [genCommit, hne]
  · simp [genCommit, hne]

/-- Witness for C5 at the spec's example fragments. -/
theorem C5_witness :
    genLoop "" [Json.str "Hel", Json.str "lo"] = ([Json.str "Hel", Json.str "lo"], "Hello") ∧
    genCommit oneBotDb 5 "s" "chat" "" = some oneBotDb ∧
    genCommit oneBotDb 5 "s" "continue" "Hello" =
      update_last_bot_message false oneBotDb 5 "s" "Hello" ∧
    genCommit oneBotDb 5 "s" "chat" "Hello" = save_msg false oneBotDb 5 "s" "bot" "Hello" := by
  have h := C5_commit_exactly_on_nonempty_buffer oneBotDb 5 "s" "chat" ["Hel", "lo"] (by decide)
  exact ⟨h.1, h.2.1, h.2.2.1, h.2.2.2⟩

/-- **C6 counterexample.** The claim says every `/chat` request with an
unsupported model performs a bot-role *append* with the fragment as the
stored content. For `action=continue` on a session that already has a bot
row, `gen` instead calls `update_last_bot_message`: the store keeps the
same number of rows and no row's content equals the fragment (the
fragment is appended to the existing row's content). The single
unsupported-model fragment itself is yielded as claimed. -/
theorem C6_counterexample :
    chat oneBotDb continueGpt4Req (.stream [] none) 7 =
      some (.streamResp [Json.str (unsupportedModelText "gpt-4")] (some oneBotDbAfter)) ∧
    oneBotDbAfter.rows.length = oneBotDb.rows.length ∧
    oneBotDbAfter.rows.map Row.message = ["old" ++ unsupportedModelText "gpt-4"] ∧
    "old" ++ unsupportedModelText "gpt-4" ≠ unsupportedModelText "gpt-4" := by
  refine ⟨rfl, rfl, rfl, fun h => ?_⟩
  have h2 := congrArg String.length h
  rw [String.length_append] at h2
  have h3 : ("old" : String).length = 3 := rfl
  omega

/-- **C6 amended.** For every request whose model differs from the single
supported `claude-sonnet-3.7`, `gen` yields exactly one unsupported-model
fragment and never consults the upstream adapter or network (its result
is independent of what the upstream connection would do); the fragment is
committed as bot content via a bot-role `save_msg` for `action=chat` (and
any action other than `continue`), and via `update_last_bot_message` for
`action=continue`. -/
theorem C6_amended_unsupported_model
    (db : DBState) (now : Nat) (sid model action : String)
    (history : List Msg) (u1 u2 : UpstreamResult)
    (hm : model ≠ "claude-sonnet-3.7") :
    runGen db now sid model action history u1 = runGen db now sid model action history u2 ∧
    runGen db now sid model action history u1 =
      ([Json.str (unsupportedModelText model)],
        if action == "continue" then
          update_last_bot_message false db now sid (unsupportedModelText model)
        else save_msg false db now sid "bot" (unsupportedModelText model)) := by
  have hne := unsupportedModelText_ne_empty model
  constructor <;> simp [runGen, genCommit, hm, hne]

/-- Witness for C6's amended theorem: `gpt-4`, two different upstream
behaviours, action `chat`. -/
theorem C6_witness :
    runGen oneBotDb 5 "s" "gpt-4" "chat" [] (.connectError "x") =
      runGen oneBotDb 5 "s" "gpt-4" "chat" [] (.stream ["data: ignored"] none) ∧
    runGen oneBotDb 5 "s" "gpt-4" "chat" [] (.connectError "x") =
      ([Json.str (unsupportedModelText "gpt-4")],
        save_msg false oneBotDb 5 "s" "bot" (unsupportedModelText "gpt-4")) := by
  have h := C6_amended_unsupported_model oneBotDb 5 "s" "gpt-4" "chat" [] (.connectError "x")
    (.stream ["data: ignored"] none) (by decide)
  exact ⟨h.1, h.2⟩

/-- **C2 counterexample.** A `/chat` request with `action=chat` and no
`text` field raises `KeyError('text')`, which the route's outer `except`
turns into an HTTP 500 `Server error: 'text'` — not the HTTP 400 the
claim asserts for every missing required field. -/
theorem C2_counterexample :
    chat { rows := [], nextId := 1 } noTextReq (.stream [] none) 7 =
      some (.serverError "Server error: \x27text\x27") ∧
    isBadRequest (chat { rows := [], nextId := 1 } noTextReq (.stream [] none) 7) = false :=
  ⟨rfl, rfl⟩

/-- **C2 amended.** An action other than `chat`/`continue` is rejected
with HTTP 400 `Invalid action.` before any stream starts; but a missing
required field is an uncaught `KeyError` answered with HTTP 500: missing
`text` (with `action=chat`) gives `Server error: 'text'`, and a missing
`session` gives `Server error: 'session'`. -/
theorem C2_amended_invalid_action_400_missing_field_500
    (db : DBState) (req : ChatReq) (u : UpstreamResult) (now : Nat)
    (sid a : String) (hs : req.session = some sid) (ha : req.action = some a)
    (h1 : a ≠ "chat") (h2 : a ≠ "continue") :
    chat db req u now = some (.badRequest "Invalid action.") ∧
    (req.text = none → chat db { req with action := some "chat" } u now =
      some (.serverError "Server error: \x27text\x27")) ∧
    chat db { req with session := none } u now =
      some (.serverError "Server error: \x27session\x27") := by
  refine ⟨?_, fun ht => ?_, rfl⟩
  · simp [chat, hs, ha, h1, h2]
  · simp [chat, hs, ht]

/-- Witness for C2's amended theorem at a concrete invalid action. -/
theorem C2_witness :
    chat { rows := [], nextId := 1 }
      { session := some "s", model := none, action := some "zap", text := none, fileInfo := none }
      (.stream [] none) 7 = some (.badRequest "Invalid action.") ∧
    chat { rows := [], nextId := 1 }
      { session := some "s", model := none, action := some "chat", text := none, fileInfo := none }
      (.stream [] none) 7 = some (.serverError "Server error: \x27text\x27") := by
  have h := C2_amended_invalid_action_400_missing_field_500 { rows := [], nextId := 1 }
    { session := some "s", model := none, action := some "zap", text := none, fileInfo := none }
    (.stream [] none) 7 "s" "zap" rfl rfl (by decide) (by decide)
  exact ⟨h.1, h.2.1 rfl⟩

/-- **C10.** A request without a `model` field is handled exactly as one
with `model = "claude-sonnet-3.7"`, and a request without an `action`
field exactly as one with `action = "chat"` (in particular it is not
rejected as an invalid action): `data.get` defaults in the route. -/
theorem C10_absent_field_defaults (db : DBState) (req : ChatReq) (u : UpstreamResult) (now : Nat) :
    chat db { req with model := none } u now =
      chat db { req with model := some "claude-sonnet-3.7" } u now ∧
    chat db { req with action := none } u now =
      chat db { req with action := some "chat" } u now := by
  cases req with
  | mk s m a t f => cases s <;> exact ⟨rfl, rfl⟩

end SukunaArcle
